import Mathlib

/-!
Verification of the `jeremybouzigard/server` HLS streaming server.

This file shallowly embeds the Go source of the repository:
* `error_response.go` — the JSON error envelope (`Error`, `NewInternalServerError`,
  `NewStatusNotFoundError`);
* the HTTP handler file (package `http`) — `handleError`, `handleNotFound`,
  `encodeJSON`, `handleGetSongByID`, `handleGetArtistByID`, `handleGetAlbumByID`,
  `handleGetStreamPlaylist`, `servePlaylist`, `handleGetStreamSegment`,
  `serveSegment`, and the shutdown goroutine of `StartServer`;
* `pkg/hls/hls.go` — `hls.Segment`, modelled as an opaque parameter because it
  invokes the external `mediafilesegmenter` executable.

Go strings that we need to reason about structurally (paths, segment names) are
modelled as `List Char`; the concrete value of a literal `"s"` is `"s".data`.
The filesystem is modelled as the list of existing paths.  Handlers return the
HTTP response they wrote (if any), the updated filesystem, and a record of the
preparation side effects they performed (`os.Mkdir` calls and `hls.Segment`
invocations), so that frame properties are provable.
-/

/-- Go `server.Error` (error_response.go): the JSON error object with
`status`, `code`, `title`, `detail` fields. -/
structure Error where
  status : String
  code : String
  title : String
  detail : String
deriving DecidableEq

/-- Go `server.NewInternalServerError` (error_response.go): status "500",
title "Internal Server Error", generic detail; `Code` left at its zero value. -/
def NewInternalServerError : Error :=
  ⟨"500", "", "Internal Server Error", "There is an error processing the request."⟩

/-- Go `server.NewStatusNotFoundError` (error_response.go): status "404",
title "Not Found", generic detail; `Code` left at its zero value. -/
def NewStatusNotFoundError : Error :=
  ⟨"404", "", "Not Found", "The requested resource does not exist."⟩

/-- Go `library.Song.Attributes` as used by the handlers: only the
`FilePath` attribute is consumed (by `servePlaylist`). -/
structure SongAttributes where
  FilePath : List Char
deriving DecidableEq

/-- Go `library.Song` as used by the handlers. -/
structure Song where
  Attributes : SongAttributes
deriving DecidableEq

/-- Go `library.Album`: opaque to the server; the album handlers only pass the
pointer through to the JSON encoder. -/
structure Album where
  attrs : Unit
deriving DecidableEq

/-- Go `library.Artist`: opaque to the server. -/
structure Artist where
  attrs : Unit
deriving DecidableEq

/-- The `Content-Type` header values this server ever sets.  `textPlain` is
what `http.Error` sets when `http.ServeFile` misses (it overrides the
previously set header). -/
inductive ContentType
  | json
  | mpegURL
  | audioAAC
  | textPlain
deriving DecidableEq

/-- Result of `http.ServeFile`: either the file at the given path is served
(status 200, range semantics elided), or a plain-text 404 error is written. -/
inductive FileResult
  | ok (p : List Char)
  | notFound
deriving DecidableEq

/-- The body of an HTTP response written by this server: a JSON error
envelope (`ErrorResponse`), a JSON data envelope for songs / albums /
artists (each element a possibly-nil pointer), or a served file. -/
inductive RespBody
  | errorEnvelope (errs : List Error)
  | songData (xs : List (Option Song))
  | albumData (xs : List (Option Album))
  | artistData (xs : List (Option Artist))
  | file (r : FileResult)
deriving DecidableEq

/-- An HTTP response: the transport-layer status code passed to
`WriteHeader`, the `Content-Type` header, and the body. -/
structure HttpResponse where
  status : Nat
  contentType : ContentType
  body : RespBody
deriving DecidableEq

/-- The filesystem, as the list of paths that exist. -/
abbrev FS := List (List Char)

/-- Preparation side effects performed by a handler: the directories passed
to `os.Mkdir` and the `(songPath, destPath)` pairs passed to `hls.Segment`. -/
structure Effects where
  mkdirs : List (List Char)
  segCalls : List (List Char × List Char)
deriving DecidableEq

/-- No side effects. -/
def noEff : Effects := ⟨[], []⟩

/-- What a handler produced: the response it wrote (`none` when the Go code
falls through without writing, i.e. the `len(id) > 0` guard fails), the
filesystem afterwards, and the preparation side effects. -/
structure HandlerOut where
  resp : Option HttpResponse
  fs : FS
  eff : Effects
deriving DecidableEq

/-- Go `hls.Segment` (pkg/hls/hls.go) runs the external `mediafilesegmenter`
executable: opaque, so modelled as a parameter mapping
`(songPath, destPath, fs)` to the filesystem it leaves behind and an
optional error. -/
abbrev Segmenter := List Char → List Char → FS → FS × Option String

/-- Go `handleError`: builds the JSON error envelope for the given code and
writes it with transport status `http.StatusOK` (200).  The final `else`
branch (codes other than 500/404, never taken by this server's handlers)
formats the code as Go `string(code)` — the Unicode code point — and uses the
error's text. -/
def handleError (err : Option String) (code : Nat) : HttpResponse :=
  let e : Error :=
    if code = 500 then NewInternalServerError
    else if code = 404 then NewStatusNotFoundError
    else ⟨String.mk [Char.ofNat code], "", "", (err.getD "")⟩
  ⟨200, ContentType.json, RespBody.errorEnvelope [e]⟩

/-- Go `handleNotFound`: delegates to `handleError(w, nil, http.StatusNotFound)`. -/
def handleNotFound : HttpResponse := handleError none 404

/-- Go `http.ServeFile` on path `p` with the handler's previously set
`Content-Type` `ct`: serves the file when it exists; otherwise writes a
plain-text 404 (`http.Error` overrides `Content-Type` to text/plain). -/
def serveFile (fs : FS) (p : List Char) (ct : ContentType) : HttpResponse :=
  if p ∈ fs then ⟨200, ct, RespBody.file (FileResult.ok p)⟩
  else ⟨404, ContentType.textPlain, RespBody.file FileResult.notFound⟩

/-- Go `handleGetSongByID`: on service error respond 500; on nil song respond
Not Found; otherwise encode the one-element data envelope (via `encodeJSON`,
which writes transport status 200). -/
def handleGetSongByID (id : List Char) (res : Except String (Option Song)) :
    Option HttpResponse :=
  if 0 < id.length then
    match res with
    | Except.error e => some (handleError (some e) 500)
    | Except.ok none => some handleNotFound
    | Except.ok (some a) => some ⟨200, ContentType.json, RespBody.songData [some a]⟩
  else none

/-- Go `handleGetArtistByID`: same shape as `handleGetSongByID`, including the
nil-artist Not Found check. -/
def handleGetArtistByID (id : List Char) (res : Except String (Option Artist)) :
    Option HttpResponse :=
  if 0 < id.length then
    match res with
    | Except.error e => some (handleError (some e) 500)
    | Except.ok none => some handleNotFound
    | Except.ok (some a) => some ⟨200, ContentType.json, RespBody.artistData [some a]⟩
  else none

/-- Go `handleGetAlbumByID`: on service error respond 500; otherwise append
the returned album pointer — without any nil check, unlike the song and
artist handlers — and encode the data envelope with transport status 200. -/
def handleGetAlbumByID (id : List Char) (res : Except String (Option Album)) :
    Option HttpResponse :=
  if 0 < id.length then
    match res with
    | Except.error e => some (handleError (some e) 500)
    | Except.ok a => some ⟨200, ContentType.json, RespBody.albumData [a]⟩
  else none

/-- The playlist file name generated by the segmenter: `prog_index.m3u8`. -/
def progIndexName : List Char := "prog_index.m3u8".data

/-- The per-song directory `fmt.Sprintf("%s/%s", h.TempDir, songID)` computed
by `servePlaylist` and `serveSegment`. -/
def playlistDirOf (tempDir songID : List Char) : List Char :=
  tempDir ++ '/' :: songID

/-- The playlist path `fmt.Sprintf("%s/%s/prog_index.m3u8", h.TempDir, songID)`
computed by `servePlaylist`. -/
def playlistPathOf (tempDir songID : List Char) : List Char :=
  tempDir ++ '/' :: songID ++ '/' :: progIndexName

/-- The segment path `fmt.Sprintf("%s/%s", playlistDir, seg)` computed by
`serveSegment`. -/
def segPathOf (tempDir songID seg : List Char) : List Char :=
  playlistDirOf tempDir songID ++ '/' :: seg

/-- Go `servePlaylist`: stat the deterministic playlist path; when it does not
exist, `os.Mkdir` the per-song directory and invoke `hls.Segment` — the error
returns of both calls are discarded; then unconditionally set the
`application/x-mpegURL` content type and `http.ServeFile` the playlist path. -/
def servePlaylist (segment : Segmenter) (tempDir songID songPath : List Char)
    (fs : FS) : HandlerOut :=
  let playlistPath := playlistPathOf tempDir songID
  if playlistPath ∈ fs then
    ⟨some (serveFile fs playlistPath ContentType.mpegURL), fs, noEff⟩
  else
    let playlistDir := playlistDirOf tempDir songID
    let fs1 := playlistDir :: fs
    let r := segment songPath playlistDir fs1
    ⟨some (serveFile r.1 playlistPath ContentType.mpegURL), r.1,
      ⟨[playlistDir], [(songPath, playlistDir)]⟩⟩

/-- Go `handleGetStreamPlaylist`: look the song up; on service error respond
500, on nil song respond Not Found, otherwise delegate to `servePlaylist`
with the song's source file path. -/
def handleGetStreamPlaylist (segment : Segmenter) (tempDir songID : List Char)
    (songRes : Except String (Option Song)) (fs : FS) : HandlerOut :=
  if 0 < songID.length then
    match songRes with
    | Except.error e => ⟨some (handleError (some e) 500), fs, noEff⟩
    | Except.ok none => ⟨some handleNotFound, fs, noEff⟩
    | Except.ok (some song) =>
        servePlaylist segment tempDir songID song.Attributes.FilePath fs
  else ⟨none, fs, noEff⟩

/-- Go `serveSegment`: join `TempDir/songID/seg`, set the `audio/aac` content
type and `http.ServeFile` the joined path.  It performs no filesystem
mutation and no segmenter invocation. -/
def serveSegment (tempDir seg songID : List Char) (fs : FS) : HandlerOut :=
  ⟨some (serveFile fs (segPathOf tempDir songID seg) ContentType.audioAAC), fs, noEff⟩

/-- Go `handleGetStreamSegment`: look the song up; on service error respond
500, on nil song respond Not Found, otherwise delegate to `serveSegment`. -/
def handleGetStreamSegment (tempDir songID seg : List Char)
    (songRes : Except String (Option Song)) (fs : FS) : HandlerOut :=
  if 0 < songID.length then
    match songRes with
    | Except.error e => ⟨some (handleError (some e) 500), fs, noEff⟩
    | Except.ok none => ⟨some handleNotFound, fs, noEff⟩
    | Except.ok (some _) => serveSegment tempDir seg songID fs
  else ⟨none, fs, noEff⟩

/-- The literal part `fileSequence` of the route pattern
`{seg:fileSequence[0-9]+.aac}` registered in `StartServer`. -/
def fileSequenceChars : List Char := "fileSequence".data

/-- Matcher for the suffix `.aac` of the route pattern, after the digit run:
one arbitrary character (Go regexp `.`, which matches anything except a
newline because the dot in the pattern is unescaped) followed by the literal
`aac` and the end of the path. -/
def matchTail : List Char → Bool
  | c :: rest => decide (c ≠ '\n') && decide (rest = ['a', 'a', 'c'])
  | [] => false

/-- Matcher for `[0-9]+.aac` at the end of the pattern: one or more digits,
then `matchTail`; like the regexp engine, it accepts when any split works. -/
def matchDigitsThen : List Char → Bool
  | [] => false
  | c :: cs => c.isDigit && (matchTail cs || matchDigitsThen cs)

/-- Matcher for the full anchored variable pattern `fileSequence[0-9]+.aac`
of the segment route. -/
def segMatch (s : List Char) : Bool :=
  fileSequenceChars.isPrefixOf s && matchDigitsThen (s.drop 12)

/-- The literal prefix `/songs/` of the segment route. -/
def slashSongsSlash : List Char := "/songs/".data

/-- The gorilla/mux route `/songs/{id:[0-9]+}/{seg:fileSequence[0-9]+.aac}`
registered in `StartServer`, compiled to the anchored regular expression
`^/songs/([0-9]+)/(fileSequence[0-9]+.aac)$` and matched against the request
path: the id is the maximal leading digit run (the character after it must
be the literal `/`, so no shorter run can match), and the segment variable is
everything after that slash, matched by `segMatch`.  Returns the extracted
`(id, seg)` variables on success. -/
def matchSegmentRoute (p : List Char) : Option (List Char × List Char) :=
  if p.take 7 = slashSongsSlash
      ∧ 0 < ((p.drop 7).takeWhile Char.isDigit).length
      ∧ ((p.drop 7).dropWhile Char.isDigit).head? = some '/'
      ∧ segMatch ((p.drop 7).dropWhile Char.isDigit).tail = true then
    some ((p.drop 7).takeWhile Char.isDigit,
          ((p.drop 7).dropWhile Char.isDigit).tail)
  else none

/-- Whether two consecutive dots (the path-traversal marker `..`) occur
anywhere in the string. -/
def hasDoubleDot : List Char → Bool
  | a :: b :: r => (decide (a = '.') && decide (b = '.')) || hasDoubleDot (b :: r)
  | _ => false

/-- Number of `/` characters in the string. -/
def countSlash : List Char → Nat
  | [] => 0
  | c :: r => (if c = '/' then 1 else 0) + countSlash r

/-- Events of the shutdown goroutine spawned by `StartServer`. -/
inductive Event
  | srvShutdown
  | logged (msg : List Char)
  | removeAll (dir : List Char)
  | closeChan
deriving DecidableEq

/-- The log line `"HTTP server Shutdown"` printed unconditionally by the
shutdown goroutine. -/
def shutdownMsg : List Char := "HTTP server Shutdown".data

/-- The log line `"HTTP server Shutdown: %v"` printed when `srv.Shutdown`
itself returns an error. -/
def shutdownFailMsg (e : List Char) : List Char :=
  "HTTP server Shutdown: ".data ++ e

/-- The shutdown goroutine of `StartServer`, after the interrupt signal:
call `srv.Shutdown` (logging its error, if any), log `"HTTP server
Shutdown"`, call `os.RemoveAll(h.TempDir)` discarding its error return, and
close the `idleConnsClosed` channel, which lets `StartServer` return.
`shutdownErr` and `removeErr` are the errors these two calls would return. -/
def teardown (tempDir : List Char) (shutdownErr removeErr : Option (List Char)) :
    List Event :=
  Event.srvShutdown ::
    ((match shutdownErr with
      | some e => [Event.logged (shutdownFailMsg e)]
      | none => []) ++
     [Event.logged shutdownMsg, Event.removeAll tempDir, Event.closeChan])

/-- Whether an event is a log line. -/
def isLogEvent : Event → Bool
  | Event.logged _ => true
  | _ => false

/-- Program counter of one request task running the preparation section of
`servePlaylist` for a fixed song: `start` — about to run the `os.Stat`
existence check; `willPrep` — the check saw the playlist missing, about to
run `os.Mkdir` + `hls.Segment`; `done` — past preparation (took the fast path
or finished segmenting), about to `http.ServeFile` the playlist path. -/
inductive TPC
  | start
  | willPrep
  | done
deriving DecidableEq

/-- Shared state of two concurrent first-time playlist requests for the same
song: whether the playlist file exists, how many times `hls.Segment` has been
invoked, and each task's program counter.  The segmenter is taken to succeed
atomically (it creates the playlist file); nothing in `servePlaylist`
serialises the two tasks — there is no per-song lock in the code. -/
structure CState where
  playlist : Bool
  seg : Nat
  t1 : TPC
  t2 : TPC
deriving DecidableEq

/-- One step of a single task: from `start`, the `os.Stat` check branches on
the playlist's current existence; from `willPrep`, run `os.Mkdir` and
`hls.Segment` (one more invocation, playlist now exists).  Returns the new
program counter, the new playlist flag, and the segmenter-invocation
increment. -/
def stepT : TPC → Bool → TPC × Bool × Nat
  | TPC.start, true => (TPC.done, true, 0)
  | TPC.start, false => (TPC.willPrep, false, 0)
  | TPC.willPrep, _ => (TPC.done, true, 1)
  | TPC.done, b => (TPC.done, b, 0)

/-- Interleaving step: scheduler picks task 2 when `i` is true, else task 1. -/
def step (s : CState) (i : Bool) : CState :=
  if i then
    let r := stepT s.t2 s.playlist
    ⟨r.2.1, s.seg + r.2.2, s.t1, r.1⟩
  else
    let r := stepT s.t1 s.playlist
    ⟨r.2.1, s.seg + r.2.2, r.1, s.t2⟩

/-- Initial state of two concurrent first-time requests: playlist absent, no
segmenter invocations yet, both tasks before their existence check. -/
def initPrep : CState := ⟨false, 0, TPC.start, TPC.start⟩

/-- Execute a schedule (list of scheduler choices) from the initial state. -/
def exec (l : List Bool) : CState := l.foldl step initPrep

/-- Number of tasks that have reached `done`. -/
def dcount (s : CState) : Nat :=
  (if s.t1 = TPC.done then 1 else 0) + (if s.t2 = TPC.done then 1 else 0)

/-- Invariant of the two-task preparation race: invocations never exceed the
number of finished tasks; a finished task implies the playlist exists; an
existing playlist implies at least one invocation (starting from
`initPrep`, where it is absent). -/
def PrepInv (s : CState) : Prop :=
  s.seg ≤ dcount s
  ∧ (s.t1 = TPC.done → s.playlist = true)
  ∧ (s.t2 = TPC.done → s.playlist = true)
  ∧ (s.playlist = true → 1 ≤ s.seg)

/-- A digit character is not a dot. -/
theorem digit_ne_dot {c : Char} (h : c.isDigit = true) : c ≠ '.' := by
  intro he
  rw [he] at h
  exact absurd h (by decide)

/-- A digit character is not a slash. -/
theorem digit_ne_slash {c : Char} (h : c.isDigit = true) : c ≠ '/' := by
  intro he
  rw [he] at h
  exact absurd h (by decide)

/-- `hasDoubleDot` ignores a leading character that is not a dot. -/
theorem hasDoubleDot_cons {a : Char} {l : List Char} (h : a ≠ '.') :
    hasDoubleDot (a :: l) = hasDoubleDot l := by
  cases l with
  | nil => simp [hasDoubleDot]
  | cons b r => simp [hasDoubleDot, h]

/-- `hasDoubleDot` ignores a leading character when the next one is not a dot. -/
theorem hasDoubleDot_cons_cons {a b : Char} {l : List Char} (h : b ≠ '.') :
    hasDoubleDot (a :: b :: l) = hasDoubleDot (b :: l) := by
  simp [hasDoubleDot, h]

/-- Prepending dot-free characters does not affect `hasDoubleDot`. -/
theorem hasDoubleDot_append {xs ys : List Char} (h : ∀ c ∈ xs, c ≠ '.') :
    hasDoubleDot (xs ++ ys) = hasDoubleDot ys := by
  induction xs with
  | nil => rfl
  | cons a xs ih =>
      rw [List.cons_append, hasDoubleDot_cons (h a (List.mem_cons_self a xs))]
      exact ih fun c hc => h c (List.mem_cons_of_mem a hc)

/-- `countSlash` distributes over append. -/
theorem countSlash_append (xs ys : List Char) :
    countSlash (xs ++ ys) = countSlash xs + countSlash ys := by
  induction xs with
  | nil => simp [countSlash]
  | cons a xs ih => simp [countSlash, ih, Nat.add_assoc]

/-- Inversion for `matchTail`: the accepted strings are an arbitrary
non-newline character followed by the literal `aac`. -/
theorem matchTail_inv {l : List Char} (h : matchTail l = true) :
    ∃ c, l = c :: ['a', 'a', 'c'] ∧ c ≠ '\n' := by
  cases l with
  | nil => exact absurd h (by decide)
  | cons c rest =>
      simp [matchTail] at h
      exact ⟨c, by rw [h.2], h.1⟩

/-- Strings accepted by `matchDigitsThen` contain no `..` and at most one
slash (the slash can only stand at the wildcard-dot position). -/
theorem matchDigitsThen_facts :
    ∀ l, matchDigitsThen l = true → hasDoubleDot l = false ∧ countSlash l ≤ 1 := by
  intro l
  induction l with
  | nil => intro h; exact absurd h (by decide)
  | cons c cs ih =>
      intro h
      simp [matchDigitsThen] at h
      obtain ⟨hd, hor⟩ := h
      have hcd : c ≠ '.' := digit_ne_dot hd
      have hcs : c ≠ '/' := digit_ne_slash hd
      cases hor with
      | inl ht =>
          obtain ⟨x, hx, hxn⟩ := matchTail_inv ht
          subst hx
          constructor
          · rw [hasDoubleDot_cons hcd, hasDoubleDot_cons_cons (by decide)]
            decide
          · simp [countSlash, hcs]
            by_cases hxs : x = '/' <;> simp [hxs]
      | inr hm =>
          obtain ⟨ih1, ih2⟩ := ih hm
          constructor
          · rw [hasDoubleDot_cons hcd]; exact ih1
          · simp [countSlash, hcs]; exact ih2

/-- Inversion for `segMatch`: an accepted segment name is the literal
`fileSequence` followed by a `matchDigitsThen`-accepted tail. -/
theorem segMatch_inv {s : List Char} (h : segMatch s = true) :
    ∃ t, s = fileSequenceChars ++ t ∧ matchDigitsThen t = true := by
  simp only [segMatch, Bool.and_eq_true] at h
  obtain ⟨hp, hm⟩ := h
  rw [ List.isPrefixOf_iff_prefix] at hp
  obtain ⟨t, ht⟩ := hp
  refine ⟨t, ht.symm, ?_⟩
  have hdrop : s.drop 12 = t := by
    rw [← ht]
    have : fileSequenceChars.length = 12 := by decide
    rw [← this]
    exact List.drop_left fileSequenceChars t
  rwa [hdrop] at hm

/-- Strings accepted by `segMatch` start with `f`, contain no `..`, and
contain at most one slash. -/
theorem segMatch_facts {s : List Char} (h : segMatch s = true) :
    s.head? = some 'f' ∧ hasDoubleDot s = false ∧ countSlash s ≤ 1 := by
  obtain ⟨t, rfl, hm⟩ := segMatch_inv h
  obtain ⟨h1, h2⟩ := matchDigitsThen_facts t hm
  refine ⟨rfl, ?_, ?_⟩
  · rw [hasDoubleDot_append (by decide)]
    exact h1
  · rw [countSlash_append]
    have : countSlash fileSequenceChars = 0 := by decide
    omega

/-- Inversion for `matchSegmentRoute`: a matched path yields the digit-run id
and a `segMatch`-accepted segment name. -/
theorem matchSegmentRoute_inv {p id seg : List Char}
    (h : matchSegmentRoute p = some (id, seg)) :
    id = (p.drop 7).takeWhile Char.isDigit
    ∧ 0 < id.length
    ∧ (∀ c ∈ id, c.isDigit = true)
    ∧ seg = ((p.drop 7).dropWhile Char.isDigit).tail
    ∧ segMatch seg = true := by
  unfold matchSegmentRoute at h
  split at h
  case isTrue hc =>
    obtain ⟨h1, h2, h3, h4⟩ := hc
    injection h with h5
    injection h5 with hid hseg
    subst hid
    subst hseg
    exact ⟨rfl, h2, fun c hc => List.mem_takeWhile_imp hc, rfl, h4⟩
  case isFalse => exact absurd h (by simp)

/-- Each interleaving step preserves the preparation invariant. -/
theorem step_prepInv (s : CState) (i : Bool) (h : PrepInv s) :
    PrepInv (step s i) := by
  obtain ⟨pl, n, t1, t2⟩ := s
  cases i <;> cases pl <;> cases t1 <;> cases t2 <;>
    simp [step, stepT, PrepInv, dcount] at * <;> omega

/-- The preparation invariant holds after any schedule from any state
satisfying it. -/
theorem foldl_prepInv (l : List Bool) :
    ∀ s : CState, PrepInv s → PrepInv (l.foldl step s) := by
  induction l with
  | nil => intro s h; exact h
  | cons i l ih => intro s h; exact ih (step s i) (step_prepInv s i h)

/-- The preparation invariant holds in every reachable state of the race. -/
theorem exec_prepInv (l : List Bool) : PrepInv (exec l) := by
  refine foldl_prepInv l initPrep ?_
  refine ⟨by decide, by decide, by decide, by decide⟩

/-- At most two tasks exist, so `dcount` is at most two. -/
theorem dcount_le_two (s : CState) : dcount s ≤ 2 := by
  unfold dcount
  split <;> split <;> omega

/-- Claim C5: a stream playlist request whose song id resolves to no song
(the lookup returns nil with no error) responds Not Found and runs no
preparation step: the filesystem is untouched, no directory is created and
the segmenter is not invoked. -/
theorem streamPlaylist_notFound_no_prep (segment : Segmenter)
    (tempDir songID : List Char) (fs : FS) (h : 0 < songID.length) :
    handleGetStreamPlaylist segment tempDir songID (Except.ok none) fs
      = ⟨some handleNotFound, fs, noEff⟩ := by
  simp [handleGetStreamPlaylist, h]

/-- Witness for C5 at song id 42 on an empty workspace. -/
theorem streamPlaylist_notFound_no_prep_witness :
    handleGetStreamPlaylist (fun _ _ f => (f, none)) "/tmp/hls1".data "42".data
      (Except.ok none) [] = ⟨some handleNotFound, [], noEff⟩ :=
  streamPlaylist_notFound_no_prep _ _ _ _ (by decide)

/-- Claim C6: every JSON error response — Not Found and Internal Server Error
alike — is written with transport-layer HTTP status 200; the error semantics
(status, title, detail) appear only in the `errors` array of the body. -/
theorem errorResponses_transport_status_200 (e : Option String) :
    handleError e 404
      = ⟨200, ContentType.json, RespBody.errorEnvelope [NewStatusNotFoundError]⟩
    ∧ handleError e 500
      = ⟨200, ContentType.json, RespBody.errorEnvelope [NewInternalServerError]⟩
    ∧ NewStatusNotFoundError.status = "404"
    ∧ NewInternalServerError.status = "500" :=
  ⟨rfl, rfl, rfl, rfl⟩

/-- Claim C10: for a well-formed numeric album id that the album service
resolves to no album and no error, `handleGetAlbumByID` responds with the
success data envelope containing a single nil entry, while the analogous
song and artist by-id handlers respond with the Not Found error envelope. -/
theorem albumByID_nil_data_envelope (id : List Char) (h : 0 < id.length) :
    handleGetAlbumByID id (Except.ok none)
      = some ⟨200, ContentType.json, RespBody.albumData [none]⟩
    ∧ handleGetSongByID id (Except.ok none) = some handleNotFound
    ∧ handleGetArtistByID id (Except.ok none) = some handleNotFound
    ∧ handleNotFound.body = RespBody.errorEnvelope [NewStatusNotFoundError] := by
  refine ⟨?_, ?_, ?_, rfl⟩ <;>
    simp [handleGetAlbumByID, handleGetSongByID, handleGetArtistByID, h]

/-- Witness for C10 at album / song / artist id 7. -/
theorem albumByID_nil_data_envelope_witness :
    handleGetAlbumByID "7".data (Except.ok none)
      = some ⟨200, ContentType.json, RespBody.albumData [none]⟩
    ∧ handleGetSongByID "7".data (Except.ok none) = some handleNotFound :=
  ⟨(albumByID_nil_data_envelope "7".data (by decide)).1,
   (albumByID_nil_data_envelope "7".data (by decide)).2.1⟩

/-- `serveFile` keeps the handler's content type exactly when it serves the
file with status 200 (on a miss, `http.Error` rewrites it to text/plain). -/
theorem serveFile_ct_of_200 (fs : FS) (p : List Char) (ct : ContentType)
    (h : (serveFile fs p ct).status = 200) :
    (serveFile fs p ct).contentType = ct := by
  unfold serveFile at *
  split at h
  · simp_all [serveFile]
  · exact absurd h (by simp_all)

/-- Claim C7: a successful (status-200) playlist response carries content type
`application/x-mpegURL` and a successful segment response carries
`audio/aac`. -/
theorem stream_success_content_types (segment : Segmenter)
    (tempDir songID songPath seg : List Char) (fs : FS) (r r' : HttpResponse)
    (h : (servePlaylist segment tempDir songID songPath fs).resp = some r)
    (h200 : r.status = 200)
    (h' : (serveSegment tempDir seg songID fs).resp = some r')
    (h200' : r'.status = 200) :
    r.contentType = ContentType.mpegURL
    ∧ r'.contentType = ContentType.audioAAC := by
  constructor
  · by_cases hm : playlistPathOf tempDir songID ∈ fs
    · simp only [servePlaylist, if_pos hm] at h
      injection h with h
      subst h
      exact serveFile_ct_of_200 _ _ _ h200
    · simp only [servePlaylist, if_neg hm] at h
      injection h with h
      subst h
      exact serveFile_ct_of_200 _ _ _ h200
  · unfold serveSegment at h'
    injection h' with h'
    subst h'
    exact serveFile_ct_of_200 _ _ _ h200'

/-- Witness for C7: song 42's playlist and segment file both exist, so both
requests succeed with status 200 and the claimed content types. -/
theorem stream_success_content_types_witness :
    (serveFile ["/tmp/hls1/42/prog_index.m3u8".data, "/tmp/hls1/42/fileSequence0.aac".data]
        "/tmp/hls1/42/prog_index.m3u8".data ContentType.mpegURL).contentType
      = ContentType.mpegURL
    ∧ (serveFile ["/tmp/hls1/42/prog_index.m3u8".data, "/tmp/hls1/42/fileSequence0.aac".data]
        "/tmp/hls1/42/fileSequence0.aac".data ContentType.audioAAC).contentType
      = ContentType.audioAAC :=
  stream_success_content_types (fun _ _ f => (f, none)) "/tmp/hls1".data "42".data
    "/music/42.mp3".data "fileSequence0.aac".data
    ["/tmp/hls1/42/prog_index.m3u8".data, "/tmp/hls1/42/fileSequence0.aac".data]
    _ _ (by decide) (by decide) (by decide) (by decide)

/-- Claim C9: a segment request never triggers preparation.  Whatever the
song lookup returned, the handler leaves the filesystem unchanged, performs
no `os.Mkdir` and no `hls.Segment` call; when the song exists it only serves
(reads) the file at `<workspace>/<songID>/<segmentName>`. -/
theorem segmentRequest_no_mutation (tempDir songID seg : List Char)
    (songRes : Except String (Option Song)) (fs : FS) :
    (handleGetStreamSegment tempDir songID seg songRes fs).fs = fs
    ∧ (handleGetStreamSegment tempDir songID seg songRes fs).eff = noEff
    ∧ (∀ song, 0 < songID.length → songRes = Except.ok (some song) →
        (handleGetStreamSegment tempDir songID seg songRes fs).resp
          = some (serveFile fs (segPathOf tempDir songID seg) ContentType.audioAAC)) := by
  by_cases h : 0 < songID.length <;>
    rcases songRes with e | ⟨_ | song⟩ <;>
      simp [handleGetStreamSegment, serveSegment, h]

/-- Witness for C9: segment request for existing song 42 on an empty
workspace reads exactly the joined segment path and mutates nothing. -/
theorem segmentRequest_no_mutation_witness :
    (handleGetStreamSegment "/tmp/hls1".data "42".data "fileSequence0.aac".data
        (Except.ok (some ⟨⟨"/music/42.mp3".data⟩⟩)) []).fs = []
    ∧ (handleGetStreamSegment "/tmp/hls1".data "42".data "fileSequence0.aac".data
        (Except.ok (some ⟨⟨"/music/42.mp3".data⟩⟩)) []).resp
      = some (serveFile []
          (segPathOf "/tmp/hls1".data "42".data "fileSequence0.aac".data)
          ContentType.audioAAC) :=
  ⟨(segmentRequest_no_mutation "/tmp/hls1".data "42".data "fileSequence0.aac".data
      (Except.ok (some ⟨⟨"/music/42.mp3".data⟩⟩)) []).1,
   (segmentRequest_no_mutation "/tmp/hls1".data "42".data "fileSequence0.aac".data
      (Except.ok (some ⟨⟨"/music/42.mp3".data⟩⟩)) []).2.2
      ⟨⟨"/music/42.mp3".data⟩⟩ (by decide) rfl⟩

/-- Claim C2 counterexample: song 42 exists, the workspace is fresh and the
segmenter fails (non-zero exit, playlist not produced).  The response is the
file server's plain-text 404 for the missing playlist, not the Internal
Server Error envelope the claim requires: the failure was discarded. -/
theorem servePlaylist_failure_not_ISE :
    (servePlaylist (fun _ _ f => (f, some "exit status 1")) "/tmp/hls1".data
        "42".data "/music/42.mp3".data []).resp
      = some ⟨404, ContentType.textPlain, RespBody.file FileResult.notFound⟩
    ∧ (servePlaylist (fun _ _ f => (f, some "exit status 1")) "/tmp/hls1".data
        "42".data "/music/42.mp3".data []).resp
      ≠ some (handleError (some "exit status 1") 500) := by
  exact ⟨by decide, by decide⟩

/-- Claim C2 amended: `servePlaylist` discards the error returns of `os.Mkdir`
and `hls.Segment` and unconditionally serves the playlist path; it never
responds with a JSON error envelope, so a failed preparation surfaces as the
file server's 404 for the missing playlist rather than as an Internal Server
Error. -/
theorem servePlaylist_discards_errors (segment : Segmenter)
    (tempDir songID songPath : List Char) (fs : FS) :
    (servePlaylist segment tempDir songID songPath fs).resp
      = some (serveFile (servePlaylist segment tempDir songID songPath fs).fs
          (playlistPathOf tempDir songID) ContentType.mpegURL)
    ∧ ∀ errs, (servePlaylist segment tempDir songID songPath fs).resp
        ≠ some ⟨200, ContentType.json, RespBody.errorEnvelope errs⟩ := by
  constructor
  · by_cases hm : playlistPathOf tempDir songID ∈ fs <;>
      simp only [servePlaylist, if_pos, if_neg, hm, ite_true, ite_false]
  · intro errs
    by_cases hm : playlistPathOf tempDir songID ∈ fs <;>
      simp only [servePlaylist, if_pos, if_neg, hm, ite_true, ite_false] <;>
        unfold serveFile <;> split <;> simp

/-- Witness for C2 amended, at the concrete failing run of the
counterexample. -/
theorem servePlaylist_discards_errors_witness :
    (servePlaylist (fun _ _ f => (f, some "exit status 1")) "/tmp/hls1".data
        "42".data "/music/42.mp3".data []).resp
      = some (serveFile
          (servePlaylist (fun _ _ f => (f, some "exit status 1")) "/tmp/hls1".data
            "42".data "/music/42.mp3".data []).fs
          (playlistPathOf "/tmp/hls1".data "42".data) ContentType.mpegURL)
    ∧ (servePlaylist (fun _ _ f => (f, some "exit status 1")) "/tmp/hls1".data
        "42".data "/music/42.mp3".data []).resp
      ≠ some ⟨200, ContentType.json, RespBody.errorEnvelope []⟩ :=
  ⟨(servePlaylist_discards_errors _ _ _ _ _).1,
   (servePlaylist_discards_errors _ _ _ _ _).2 []⟩

/-- Claim C3: idempotent preparation.  Whenever the playlist file already
exists at `<workspace>/<songID>/prog_index.m3u8`, `servePlaylist` serves it
without invoking the segmenter and without creating any directory (fast
path); and — assuming the segmenter fulfils its contract of producing the
playlist file in the target directory — two sequential playlist requests for
the same song invoke the segmenter at most once in total. -/
theorem servePlaylist_idempotent (segment : Segmenter)
    (tempDir songID songPath : List Char) (fs : FS)
    (hseg : ∀ f : FS, playlistPathOf tempDir songID
        ∈ (segment songPath (playlistDirOf tempDir songID) f).1) :
    (playlistPathOf tempDir songID ∈ fs →
      servePlaylist segment tempDir songID songPath fs
        = ⟨some (serveFile fs (playlistPathOf tempDir songID) ContentType.mpegURL),
           fs, noEff⟩)
    ∧ (servePlaylist segment tempDir songID songPath fs).eff.segCalls.length
        + (servePlaylist segment tempDir songID songPath
            (servePlaylist segment tempDir songID songPath fs).fs).eff.segCalls.length
        ≤ 1 := by
  by_cases hm : playlistPathOf tempDir songID ∈ fs
  · constructor
    · intro _
      simp only [servePlaylist, if_pos hm]
    · simp only [servePlaylist, if_pos hm]
      simp [noEff]
  · constructor
    · intro hc; exact absurd hc hm
    · have h2 : playlistPathOf tempDir songID
          ∈ (segment songPath (playlistDirOf tempDir songID)
              (playlistDirOf tempDir songID :: fs)).1 := hseg _
      simp only [servePlaylist, if_neg hm]
      rw [if_pos h2]
      simp [noEff]

/-- Witness for C3: a contract-abiding segmenter on a fresh workspace — the
first request invokes it once, the second takes the fast path. -/
theorem servePlaylist_idempotent_witness :
    ((servePlaylist (fun _ _ f => (playlistPathOf "/tmp/hls1".data "42".data :: f, none))
        "/tmp/hls1".data "42".data "/music/42.mp3".data []).eff.segCalls.length
      + (servePlaylist (fun _ _ f => (playlistPathOf "/tmp/hls1".data "42".data :: f, none))
          "/tmp/hls1".data "42".data "/music/42.mp3".data
          (servePlaylist (fun _ _ f => (playlistPathOf "/tmp/hls1".data "42".data :: f, none))
            "/tmp/hls1".data "42".data "/music/42.mp3".data []).fs).eff.segCalls.length
      ≤ 1) :=
  (servePlaylist_idempotent
    (fun _ _ f => (playlistPathOf "/tmp/hls1".data "42".data :: f, none))
    "/tmp/hls1".data "42".data "/music/42.mp3".data []
    (fun f => List.mem_cons_self _ _)).2

/-- Claim C4 counterexample: the unescaped dot in the route pattern
`fileSequence[0-9]+.aac` matches any character, `/` included, so the request
path `/songs/1/fileSequence2/aac` is accepted by the segment route and the
slash-containing filename `fileSequence2/aac` is joined verbatim onto the
workspace directory — refuting "no filename containing a slash is ever
joined". -/
theorem segmentRoute_slash_joined :
    matchSegmentRoute "/songs/1/fileSequence2/aac".data
      = some ("1".data, "fileSequence2/aac".data)
    ∧ '/' ∈ "fileSequence2/aac".data
    ∧ segPathOf "/tmp/hls1".data "1".data "fileSequence2/aac".data
        = "/tmp/hls1/1/fileSequence2/aac".data := by
  exact ⟨by decide, by decide, by decide⟩

/-- Claim C4 amended: every segment filename reaching the filesystem join has
been validated by the route against `fileSequence[0-9]+.aac` (with the dot a
single-character wildcard, so at most one slash — at the wildcard position —
can occur in it); no filename containing `..` and no absolute filename is
ever joined, and the resolved path is the workspace path followed by
`songID/…` with no `..` anywhere after the workspace prefix, so it stays
inside `<workspace>/<songID>/`. -/
theorem segmentRoute_traversal_safety (p id seg tempDir : List Char)
    (h : matchSegmentRoute p = some (id, seg)) :
    segMatch seg = true
    ∧ 0 < id.length
    ∧ (∀ c ∈ id, c.isDigit = true)
    ∧ seg.head? = some 'f'
    ∧ hasDoubleDot seg = false
    ∧ countSlash seg ≤ 1
    ∧ hasDoubleDot (id ++ '/' :: seg) = false
    ∧ segPathOf tempDir id seg = tempDir ++ '/' :: (id ++ '/' :: seg) := by
  obtain ⟨hid, hlen, hdig, hsegEq, hsm⟩ := matchSegmentRoute_inv h
  obtain ⟨hhead, hdd, hcount⟩ := segMatch_facts hsm
  refine ⟨hsm, hlen, hdig, hhead, hdd, hcount, ?_, ?_⟩
  · rw [hasDoubleDot_append (fun c hc => digit_ne_dot (hdig c hc)),
      hasDoubleDot_cons (by decide)]
    exact hdd
  · simp [segPathOf, playlistDirOf]

/-- Witness for C4 amended at the well-formed request
`/songs/1/fileSequence2.aac`. -/
theorem segmentRoute_traversal_safety_witness :
    segMatch "fileSequence2.aac".data = true
    ∧ hasDoubleDot ("1".data ++ '/' :: "fileSequence2.aac".data) = false
    ∧ segPathOf "/tmp/hls1".data "1".data "fileSequence2.aac".data
        = "/tmp/hls1".data ++ '/' :: ("1".data ++ '/' :: "fileSequence2.aac".data) :=
  ⟨(segmentRoute_traversal_safety "/songs/1/fileSequence2.aac".data "1".data
      "fileSequence2.aac".data "/tmp/hls1".data (by decide)).1,
   (segmentRoute_traversal_safety "/songs/1/fileSequence2.aac".data "1".data
      "fileSequence2.aac".data "/tmp/hls1".data (by decide)).2.2.2.2.2.2.1,
   (segmentRoute_traversal_safety "/songs/1/fileSequence2.aac".data "1".data
      "fileSequence2.aac".data "/tmp/hls1".data (by decide)).2.2.2.2.2.2.2⟩

/-- Claim C8 counterexample: a failing `os.RemoveAll` produces exactly the
same event trace as a successful one — in particular the only log line is
the unconditional `"HTTP server Shutdown"`; the removal error is never
logged, refuting "an error from the removal is logged". -/
theorem teardown_removal_error_unlogged :
    teardown "/tmp/hls1".data none (some "permission denied".data)
      = teardown "/tmp/hls1".data none none
    ∧ (teardown "/tmp/hls1".data none
        (some "permission denied".data)).filter isLogEvent
      = [Event.logged shutdownMsg] := by
  exact ⟨rfl, by decide⟩

/-- Claim C8 amended: workspace teardown is a best-effort `os.RemoveAll`
performed after `srv.Shutdown` has returned; its error is silently discarded
— neither logged nor escalated — and the channel close that lets the process
exit always follows it. -/
theorem teardown_best_effort (tempDir : List Char)
    (shutdownErr removeErr : Option (List Char)) :
    teardown tempDir shutdownErr removeErr = teardown tempDir shutdownErr none
    ∧ ∃ pre, teardown tempDir shutdownErr removeErr
        = Event.srvShutdown :: pre
            ++ [Event.logged shutdownMsg, Event.removeAll tempDir, Event.closeChan] := by
  refine ⟨rfl, ?_⟩
  cases shutdownErr with
  | none => exact ⟨[], rfl⟩
  | some e => exact ⟨[Event.logged (shutdownFailMsg e)], rfl⟩

/-- Claim C1 counterexample: the schedule in which both request tasks run
their `os.Stat` existence check before either begins preparation drives both
to completion with the external segmenter invoked twice for the same song —
refuting "the External Segmenter is invoked exactly once" and the existence
of any per-song mutual exclusion in the code. -/
theorem concurrent_prep_double_invocation :
    (exec [false, true, false, true]).t1 = TPC.done
    ∧ (exec [false, true, false, true]).t2 = TPC.done
    ∧ (exec [false, true, false, true]).seg = 2 := by
  exact ⟨by decide, by decide, by decide⟩

/-- Claim C1 amended: under every interleaving of two concurrent first-time
playlist requests for the same song, the segmenter is invoked at most twice
(once per task), and when both tasks have completed it was invoked at least
once and the playlist file exists — each completed request then serves the
same playlist path.  No schedule is excluded: the code has no per-song
lock. -/
theorem concurrent_prep_bounds (l : List Bool) :
    (exec l).seg ≤ 2
    ∧ ((exec l).t1 = TPC.done → (exec l).t2 = TPC.done →
        1 ≤ (exec l).seg ∧ (exec l).playlist = true) := by
  obtain ⟨h1, h2, _h3, h4⟩ := exec_prepInv l
  exact ⟨le_trans h1 (dcount_le_two _), fun hd1 _hd2 => ⟨h4 (h2 hd1), h2 hd1⟩⟩

/-- Witness for C1 amended at the fully serialised schedule, where the
segmenter runs exactly once. -/
theorem concurrent_prep_bounds_witness :
    (exec [false, false, true, true]).seg ≤ 2
    ∧ (1 ≤ (exec [false, false, true, true]).seg
        ∧ (exec [false, false, true, true]).playlist = true) :=
  ⟨(concurrent_prep_bounds [false, false, true, true]).1,
   (concurrent_prep_bounds [false, false, true, true]).2 (by decide) (by decide)⟩
